import Mathlib

/-!
Timing sources and value utilities of llvm-prof.

A shallow embedding of `include/TimingSource.h` and `lib/ValueUtils.cpp`.

* `std::vector<double>` is a `List Float`; `operator[]` is the partial lookup `l[i]?`
  (an access past the end is undefined behaviour in C++ and is `none` here).
* `size_t` arithmetic is taken modulo `2 ^ 64`.
* Enumerators are integers, each one defined from the previous one the way the C++ rule
  for enumerator values does it.
* The LLVM values that `ValueUtils.cpp` inspects are the inductive type `llvm.Value`.
-/

namespace llvm

/-! ## `TimingSource.h` -/

/-- Values of `enum class Kind` (underlying type `int`). -/
abbrev TimingSource.Kind := Int

namespace TimingSource.Kind

def Base : Kind := 0
def BBlock : Kind := Base + 1
def Lmbench : Kind := BBlock + 1
def Irinst : Kind := Lmbench + 1
def IrinstMax : Kind := Irinst + 1
def BBlockLast : Kind := IrinstMax + 1
def MPI : Kind := BBlockLast
def MPBench : Kind := MPI + 1
def MPILast : Kind := MPBench + 1

end TimingSource.Kind

/-- The effect of a `void(double*)` callback on the buffer it is handed: from the current
contents of the buffer, the stores `(offset, value)` it performs through the pointer, in
program order. -/
abbrev Callback := List Float → List (Nat × Float)

/-- One store `data[w.1] = w.2`; a store past the end of the buffer is undefined behaviour
(`none`). -/
def storeAt (buf : List Float) (w : Nat × Float) : Option (List Float) :=
  if w.1 < buf.length then some (buf.set w.1 w.2) else none

/-- A sequence of stores through the pointer. -/
def runStores : List Float → List (Nat × Float) → Option (List Float)
  | buf, [] => some buf
  | buf, w :: ws =>
    match storeAt buf w with
    | some buf1 => runStores buf1 ws
    | none => none

/-- The data members of `class TimingSource`. -/
structure TimingSource where
  kindof : TimingSource.Kind
  file_initializer : String → Callback
  params : List Float

namespace TimingSource

/-- The width of `size_t`. -/
def SIZE_WIDTH : Nat := 64

/-- Constructor `TimingSource(Kind K, size_t NumParam)`: `params.resize(NumParam+1)` on the
empty vector, which value-initialises every entry to `0.0`. The base class leaves
`file_initializer` to the derived class, so it is an argument here. -/
def new (K : Kind) (NumParam : Nat) (file_initializer : String → Callback) : TimingSource :=
  ⟨K, file_initializer, List.replicate ((NumParam + 1) % 2 ^ SIZE_WIDTH) 0.0⟩

/-- Member `init(std::function<void(double*)> func)`: `func(params.data())`. -/
def init_func (S : TimingSource) (func : Callback) : Option TimingSource :=
  match runStores S.params (func S.params) with
  | some p => some ⟨S.kindof, S.file_initializer, p⟩
  | none => none

/-- Member `init(std::initializer_list<double> list)`: `params.clear(); params.assign(list)`. -/
def init_list (S : TimingSource) (list : List Float) : TimingSource :=
  ⟨S.kindof, S.file_initializer, list⟩

/-- Member `init_with_file(file)`: `init(std::bind(file_initializer, file, _1))`. -/
def init_with_file (S : TimingSource) (file : String) : Option TimingSource :=
  S.init_func (S.file_initializer file)

/-- Member `getKind()`. -/
def getKind (S : TimingSource) : Kind := S.kindof

end TimingSource

open TimingSource (Kind)

/-- Static member `BBlockTiming::classof`. -/
def BBlockTiming.classof (S : TimingSource) : Bool :=
  decide (S.getKind < Kind.BBlockLast) && decide (S.getKind > Kind.BBlock)

/-- Static member `MPITiming::classof`. -/
def MPITiming.classof (S : TimingSource) : Bool :=
  decide (S.getKind < Kind.MPILast) && decide (S.getKind > Kind.MPI)

/-- Member `_timing_source::T<EnumType>::get`: `address[E]`, where `address` refers to the
parameter vector. -/
def _timing_source.T.get (address : List Float) (E : Nat) : Option Float :=
  address[E]?

/-! ### `enum LmbenchInstGroups` -/

def LmbenchInstGroups.Integer : Nat := 0
def LmbenchInstGroups.I64 : Nat := 1
def LmbenchInstGroups.Float : Nat := 2
def LmbenchInstGroups.Double : Nat := 3
def LmbenchInstGroups.Add : Nat := 0 <<< 2
def LmbenchInstGroups.Mul : Nat := 1 <<< 2
def LmbenchInstGroups.Div : Nat := 2 <<< 2
def LmbenchInstGroups.Mod : Nat := 3 <<< 2
def LmbenchInstGroups.Last : Nat := LmbenchInstGroups.Double ||| LmbenchInstGroups.Mod
def LmbenchInstGroups.NumGroups : Nat := LmbenchInstGroups.Last + 1

/-- The enumerators commented `// Ntype`, in declaration order. -/
def LmbenchInstGroups.ntypes : List Nat :=
  [LmbenchInstGroups.Integer, LmbenchInstGroups.I64, LmbenchInstGroups.Float,
   LmbenchInstGroups.Double]

/-- The enumerators commented `// Method`, in declaration order. -/
def LmbenchInstGroups.methods : List Nat :=
  [LmbenchInstGroups.Add, LmbenchInstGroups.Mul, LmbenchInstGroups.Div,
   LmbenchInstGroups.Mod]

/-- Static member `LmbenchTiming::classof`. -/
def LmbenchTiming.classof (S : TimingSource) : Bool :=
  decide (S.getKind = Kind.Lmbench)

/-! ### `enum IrinstGroups` -/

namespace IrinstGroups

def LOAD : Nat := 0
def STORE : Nat := LOAD + 1
def ALLOCA : Nat := STORE + 1
def GETELEMENTPTR : Nat := ALLOCA + 1
def FIX_ADD : Nat := GETELEMENTPTR + 1
def FLOAT_ADD : Nat := FIX_ADD + 1
def FIX_MUL : Nat := FLOAT_ADD + 1
def FLOAT_MUL : Nat := FIX_MUL + 1
def FIX_SUB : Nat := FLOAT_MUL + 1
def FLOAT_SUB : Nat := FIX_SUB + 1
def U_DIV : Nat := FLOAT_SUB + 1
def S_DIV : Nat := U_DIV + 1
def FLOAT_DIV : Nat := S_DIV + 1
def U_REM : Nat := FLOAT_DIV + 1
def S_REM : Nat := U_REM + 1
def FLOAT_REM : Nat := S_REM + 1
def SHL : Nat := FLOAT_REM + 1
def LSHR : Nat := SHL + 1
def ASHR : Nat := LSHR + 1
def AND : Nat := ASHR + 1
def OR : Nat := AND + 1
def XOR : Nat := OR + 1
def TRUNC : Nat := XOR + 1
def ZEXT : Nat := TRUNC + 1
def SEXT : Nat := ZEXT + 1
def FPTRUNC : Nat := SEXT + 1
def FPEXT : Nat := FPTRUNC + 1
def FPTOUI : Nat := FPEXT + 1
def FPTOSI : Nat := FPTOUI + 1
def UITOFP : Nat := FPTOSI + 1
def SITOFP : Nat := UITOFP + 1
def PTRTOINT : Nat := SITOFP + 1
def INTTOPTR : Nat := PTRTOINT + 1
def BITCAST : Nat := INTTOPTR + 1
def ICMP : Nat := BITCAST + 1
def FCMP : Nat := ICMP + 1
def SELECT : Nat := FCMP + 1
def IrinstNumGroups : Nat := SELECT + 1

/-- The enumerators from `LOAD` to `SELECT`, in declaration order. -/
def categories : List Nat :=
  [LOAD, STORE, ALLOCA, GETELEMENTPTR, FIX_ADD, FLOAT_ADD,
   FIX_MUL, FLOAT_MUL, FIX_SUB, FLOAT_SUB, U_DIV, S_DIV,
   FLOAT_DIV, U_REM, S_REM, FLOAT_REM, SHL, LSHR,
   ASHR, AND, OR, XOR, TRUNC, ZEXT,
   SEXT, FPTRUNC, FPEXT, FPTOUI, FPTOSI, UITOFP,
   SITOFP, PTRTOINT, INTTOPTR, BITCAST, ICMP, FCMP,
   SELECT]

end IrinstGroups

/-- Static member `IrinstTiming::classof`. -/
def IrinstTiming.classof (S : TimingSource) : Bool :=
  decide (S.getKind = Kind.Irinst)

/-- Static member `IrinstMaxTiming::classof`. -/
def IrinstMaxTiming.classof (S : TimingSource) : Bool :=
  decide (S.getKind = Kind.IrinstMax)

/-- Static member `MPBenchTiming::classof`. -/
def MPBenchTiming.classof (S : TimingSource) : Bool :=
  decide (S.getKind = Kind.MPBench)

/-! ## `ValueUtils.cpp` -/

/-- The LLVM values that `ValueUtils.cpp` tells apart, with the operands it reads.
A function and a global variable are identified by name, an argument by its parent
function and its position. A constant expression is a cast, a `getelementptr` or of
another opcode; an instruction that is none of store, load, cast, `getelementptr` and
call is `OtherInst`; a value that is none of the above (constant data, a basic block)
is `Other`. -/
inductive Value where
  | GlobalVariable (name : String)
  | Function (name : String)
  | Argument (parent : String) (argNo : Nat)
  | CastConstantExpr (op : Value)
  | GEPConstantExpr (ptr : Value)
  | OtherConstantExpr
  | StoreInst (val ptr : Value)
  | LoadInst (ptr : Value)
  | CastInst (op : Value)
  | GetElementPtrInst (ptr : Value)
  | CallInst (callee : Value) (args : List Value)
  | OtherInst
  | Other

namespace Value

/-- The test `isa<ConstantExpr>(v)`. -/
def isConstantExpr : Value → Bool
  | CastConstantExpr _ => true
  | GEPConstantExpr _ => true
  | OtherConstantExpr => true
  | _ => false

/-- The test `isa<Instruction>(v)`. -/
def isInstruction : Value → Bool
  | StoreInst _ _ => true
  | LoadInst _ => true
  | CastInst _ => true
  | GetElementPtrInst _ => true
  | CallInst _ _ => true
  | OtherInst => true
  | _ => false

/-- Member `ConstantExpr::getAsInstruction`: the instruction of the same opcode and operands. -/
def getAsInstruction : Value → Value
  | CastConstantExpr op => CastInst op
  | GEPConstantExpr ptr => GetElementPtrInst ptr
  | OtherConstantExpr => OtherInst
  | v => v

end Value

namespace lle

open Value

/-- Function `lle::castoff`. A constant expression is first replaced by `getAsInstruction()`; a cast
instruction then recurses into operand 0, anything else is returned. The cases are, in
order: a cast constant expression (becomes a cast instruction, recurse), a `getelementptr`
or other constant expression (becomes the instruction, returned), a cast instruction
(recurse), any other value (returned). -/
def castoff : Value → Value
  | CastConstantExpr op => castoff op
  | GEPConstantExpr ptr => GetElementPtrInst ptr
  | OtherConstantExpr => OtherInst
  | CastInst op => castoff op
  | v => v

/-- What stops a run of the global-variable walk short of a result. -/
inductive Fault where
  | outOfFuel
  | argOperandOutOfRange
  deriving DecidableEq, Repr

/-- A returned `GlobalVariable*` (`none` is `NULL`), or a fault. -/
abbrev Result := Except Fault (Option String)

/-- The use lists of a module: for each function, by name, the users of its uses in
use-list order. -/
abbrev Module := String → List Value

/-- The loop of `parameter_access_global_variable` over the users of the parent function.
`recArg` and `recInst` are the two recursive calls. `CallInst::getArgOperand` at a position
the call does not have is a fault. -/
def usersLoop (argNo : Nat) (recArg : String → Nat → Result) (recInst : Value → Result) :
    List Value → Result
  | [] => .ok none
  | CallInst _ args :: rest =>
    match args[argNo]? with
    | none => .error Fault.argOperandOutOfRange
    | some (GlobalVariable g) => .ok (some g)
    | some T =>
      let G : Result :=
        match T with
        | Argument parent n => recArg parent n
        | _ => if T.isInstruction then recInst T else .ok none
      match G with
      | .ok none => usersLoop argNo recArg recInst rest
      | r => r
  | _ :: rest => usersLoop argNo recArg recInst rest

mutual

/-- Function `parameter_access_global_variable(Arg)`, with `Arg` given by its parent and position.
Every call of either function takes one unit of fuel. -/
def parameter_access_global_variable (M : Module) : Nat → String → Nat → Result
  | 0, _, _ => .error Fault.outOfFuel
  | fuel + 1, F, argNo =>
    usersLoop argNo (parameter_access_global_variable M fuel) (access_global_variable M fuel)
      (M F)

/-- Function `lle::access_global_variable(I)`. -/
def access_global_variable (M : Module) : Nat → Value → Result
  | 0, _ => .error Fault.outOfFuel
  | fuel + 1, I =>
    let U0 : Option Value :=
      match I with
      | StoreInst _ ptr => some ptr
      | LoadInst ptr => some ptr
      | CastInst _ => some (castoff I)
      | GetElementPtrInst ptr => some ptr
      | _ => none
    match U0 with
    | none => .ok none
    | some U0 =>
      let U := if U0.isConstantExpr then castoff U0 else U0
      if U.isInstruction then access_global_variable M fuel U
      else
        match U with
        | Argument parent n => parameter_access_global_variable M fuel parent n
        | GlobalVariable g => .ok (some g)
        | _ => .ok none

end

/-- The static table `CountPos` of `get_mpi_count_idx`. -/
def CountPos : List (String × Nat) :=
  [("mpi_reduce_", 2),
   ("mpi_allreduce_", 2),
   ("mpi_send_", 1),
   ("mpi_recv_", 1),
   ("mpi_isend_", 1),
   ("mpi_irecv_", 1),
   ("mpi_bcast_", 1)]

/-- Function `lle::get_mpi_count_idx(CI)`, the call instruction `CI` given by its called value and its
arguments. `CV` is the call instruction itself, as in the source. -/
def get_mpi_count_idx (callee : Value) (args : List Value) : Nat :=
  let CV := CallInst callee args
  match castoff CV with
  | Function name =>
    match CountPos.lookup name with
    | none => 0
    | some pos => pos
  | _ => 0

/-- A value wrapped in a finite chain of casts, outermost first: `true` is a cast
instruction, `false` a cast constant expression. -/
def wrapCasts : List Bool → Value → Value
  | [], v => v
  | true :: cs, v => CastInst (wrapCasts cs v)
  | false :: cs, v => CastConstantExpr (wrapCasts cs v)

end lle

/-! ## Lemmas -/

open TimingSource (SIZE_WIDTH)

theorem storeAt_length {buf buf1 : List Float} {w : Nat × Float}
    (h : storeAt buf w = some buf1) : buf1.length = buf.length := by
  unfold storeAt at h
  split at h
  · cases h
    simp
  · cases h

theorem runStores_length :
    ∀ (ws : List (Nat × Float)) (buf buf1 : List Float),
      runStores buf ws = some buf1 → buf1.length = buf.length
  | [], buf, buf1, h => by
    simp only [runStores, Option.some.injEq] at h
    rw [h]
  | w :: ws, buf, buf1, h => by
    simp only [runStores] at h
    cases hs : storeAt buf w with
    | none => simp [hs] at h
    | some b =>
      simp only [hs] at h
      rw [runStores_length ws b buf1 h, storeAt_length hs]

theorem runStores_inBounds :
    ∀ (ws : List (Nat × Float)) (buf : List Float),
      (∀ w ∈ ws, w.1 < buf.length) → ∃ buf1, runStores buf ws = some buf1
  | [], buf, _ => ⟨buf, rfl⟩
  | w :: ws, buf, h => by
    have hw : w.1 < buf.length := h w (List.mem_cons_self _ _)
    have hs : storeAt buf w = some (buf.set w.1 w.2) := by
      simp [storeAt, hw]
    have hrest : ∀ v ∈ ws, v.1 < (buf.set w.1 w.2).length := by
      intro v hv
      simpa using h v (List.mem_cons_of_mem _ hv)
    obtain ⟨buf1, h1⟩ := runStores_inBounds ws (buf.set w.1 w.2) hrest
    exact ⟨buf1, by simp only [runStores, hs, h1]⟩

theorem init_func_length {S S1 : TimingSource} {func : Callback}
    (h : S.init_func func = some S1) : S1.params.length = S.params.length := by
  unfold TimingSource.init_func at h
  cases hr : runStores S.params (func S.params) with
  | none => simp [hr] at h
  | some p =>
    simp only [hr, Option.some.injEq] at h
    rw [← h]
    exact runStores_length _ _ _ hr

theorem init_func_inBounds (S : TimingSource) (func : Callback)
    (h : ∀ w ∈ func S.params, w.1 < S.params.length) :
    ∃ S1, S.init_func func = some S1 ∧ S1.params.length = S.params.length := by
  obtain ⟨p, hp⟩ := runStores_inBounds (func S.params) S.params h
  have hS : S.init_func func = some ⟨S.kindof, S.file_initializer, p⟩ := by
    simp only [TimingSource.init_func, hp]
  exact ⟨_, hS, init_func_length hS⟩

theorem new_params_length (K : Kind) (N : Nat) (fi : String → Callback)
    (hN : N + 1 < 2 ^ SIZE_WIDTH) : (TimingSource.new K N fi).params.length = N + 1 := by
  simp only [TimingSource.new, List.length_replicate]
  exact Nat.mod_eq_of_lt hN

theorem get_replicate_zero (n i : Nat) (h : i < n) :
    _timing_source.T.get (List.replicate n 0.0) i = some 0.0 := by
  simp [_timing_source.T.get, List.getElem?_replicate, h]

namespace lle

open Value

/-- The function `castoff` satisfies the equation of the source: replace a constant expression by its
instruction, then recurse through a cast instruction. -/
theorem castoff_source_shape (v : Value) :
    castoff v =
      (let v1 := if v.isConstantExpr then v.getAsInstruction else v
       match v1 with
       | CastInst op => castoff op
       | w => w) := by
  cases v <;> simp [castoff, isConstantExpr, getAsInstruction]

theorem castoff_wrapCasts_globalVariable (G : String) :
    ∀ chain : List Bool, castoff (wrapCasts chain (GlobalVariable G)) = GlobalVariable G
  | [] => rfl
  | true :: cs => by
    simp only [wrapCasts, castoff]
    exact castoff_wrapCasts_globalVariable G cs
  | false :: cs => by
    simp only [wrapCasts, castoff]
    exact castoff_wrapCasts_globalVariable G cs

theorem castoff_callInst (callee : Value) (args : List Value) :
    castoff (CallInst callee args) = CallInst callee args := rfl

theorem get_mpi_count_idx_eq_zero (callee : Value) (args : List Value) :
    get_mpi_count_idx callee args = 0 := by
  simp [get_mpi_count_idx, castoff]

theorem access_global_variable_castInst (M : Module) (fuel : Nat) (q : Value) (G : String)
    (h : castoff q = GlobalVariable G) :
    access_global_variable M (fuel + 1) (CastInst q) = .ok (some G) := by
  simp [access_global_variable, castoff, h, isConstantExpr, isInstruction]

theorem access_global_variable_pointer (M : Module) (fuel : Nat) (G : String) :
    ∀ chain : List Bool,
      (let p := wrapCasts chain (GlobalVariable G)
       let U := if p.isConstantExpr then castoff p else p
       (if U.isInstruction then access_global_variable M (fuel + 1) U
        else
          match U with
          | Argument parent n => parameter_access_global_variable M (fuel + 1) parent n
          | GlobalVariable g => .ok (some g)
          | _ => .ok none) = .ok (some G))
  | [] => by simp [wrapCasts, isConstantExpr, isInstruction]
  | true :: cs => by
    simp only [wrapCasts, isConstantExpr, isInstruction]
    exact access_global_variable_castInst M fuel _ G (castoff_wrapCasts_globalVariable G cs)
  | false :: cs => by
    have h := castoff_wrapCasts_globalVariable G cs
    simp [wrapCasts, isConstantExpr, isInstruction, castoff, h]

end lle

/-! ## The parameter vector -/

/-- C1, as stated, fails: a model built with 16 categories has 17 parameters, and after
`init` with the one-element list `[1.0]` it has 1 parameter, not 17. -/
theorem C1_init_list_changes_the_size :
    (TimingSource.new Kind.Lmbench 16 (fun _ _ => [])).params.length = 16 + 1 ∧
    ((TimingSource.new Kind.Lmbench 16 (fun _ _ => [])).init_list [1.0]).params.length = 1 ∧
    ((TimingSource.new Kind.Lmbench 16 (fun _ _ => [])).init_list [1.0]).params.length
      ≠ 16 + 1 := by
  refine ⟨rfl, rfl, ?_⟩
  show ¬ (1 = 16 + 1)
  decide

/-- C1, amended: a timing source constructed with `N` categories (`N + 1` within `size_t`)
has `N + 1` parameters; `init` with a callback and `init_with_file` keep that size
whenever they return, and they return whenever the callback stores within the buffer;
after `init` with a value list the vector has as many entries as the list, hence `N + 1`
entries exactly when the list has `N + 1` values. -/
theorem C1_params_size_invariant (K : Kind) (N : Nat) (fi : String → Callback)
    (hN : N + 1 < 2 ^ SIZE_WIDTH) :
    (TimingSource.new K N fi).params.length = N + 1 ∧
    ∀ S : TimingSource, S.params.length = N + 1 →
      (∀ func S1, S.init_func func = some S1 → S1.params.length = N + 1) ∧
      (∀ func, (∀ w ∈ func S.params, w.1 < N + 1) →
        ∃ S1, S.init_func func = some S1 ∧ S1.params.length = N + 1) ∧
      (∀ file S1, S.init_with_file file = some S1 → S1.params.length = N + 1) ∧
      (∀ file, (∀ w ∈ S.file_initializer file S.params, w.1 < N + 1) →
        ∃ S1, S.init_with_file file = some S1 ∧ S1.params.length = N + 1) ∧
      (∀ list, (S.init_list list).params.length = list.length) ∧
      (∀ list, (S.init_list list).params.length = N + 1 ↔ list.length = N + 1) := by
  refine ⟨new_params_length K N fi hN, ?_⟩
  intro S hS
  refine ⟨?_, ?_, ?_, ?_, ?_, ?_⟩
  · intro func S1 h
    rw [init_func_length h, hS]
  · intro func hb
    obtain ⟨S1, h1, h2⟩ := init_func_inBounds S func (by rw [hS]; exact hb)
    exact ⟨S1, h1, by rw [h2, hS]⟩
  · intro file S1 h
    rw [init_func_length h, hS]
  · intro file hb
    obtain ⟨S1, h1, h2⟩ :=
      init_func_inBounds S (S.file_initializer file) (by rw [hS]; exact hb)
    exact ⟨S1, h1, by rw [h2, hS]⟩
  · intro list
    rfl
  · intro list
    exact Iff.rfl

/-- C1, amended, at a model with 16 categories and a callback that stores into the
reserved slot 16. -/
theorem C1_params_size_invariant_witness :
    16 + 1 < 2 ^ SIZE_WIDTH ∧
    ∃ S1, (TimingSource.new Kind.Lmbench 16 (fun _ _ => [])).init_func
        (fun _ => [(16, 2.5)]) = some S1 ∧ S1.params.length = 16 + 1 :=
  ⟨by decide,
   ((C1_params_size_invariant Kind.Lmbench 16 (fun _ _ => []) (by decide)).2
      (TimingSource.new Kind.Lmbench 16 (fun _ _ => [])) rfl).2.1
      (fun _ => [(16, 2.5)]) (by simp)⟩

/-- C2: `init` with a value list replaces the parameters by the list, whatever the prior
state: the vector is the list, has its length, and `get(i)` returns the `i`-th value for
every index of the list. A coarse model initialised with 16 ones followed by one 0 returns
1.0 for the category `(Add<<2)|Integer`. -/
theorem C2_init_list_round_trip (S : TimingSource) (list : List Float) :
    (S.init_list list).params = list ∧
    (S.init_list list).params.length = list.length ∧
    (∀ (i : Nat) (h : i < list.length),
      _timing_source.T.get (S.init_list list).params i = some list[i]) ∧
    (∀ fi : String → Callback,
      _timing_source.T.get
        ((TimingSource.new Kind.Lmbench LmbenchInstGroups.NumGroups fi).init_list
          (List.replicate 16 1.0 ++ [0.0])).params
        ((LmbenchInstGroups.Add <<< 2) ||| LmbenchInstGroups.Integer) = some 1.0) := by
  refine ⟨rfl, rfl, ?_, ?_⟩
  · intro i h
    simp [TimingSource.init_list, _timing_source.T.get, List.getElem?_eq_getElem h]
  · intro fi
    rfl

/-- C2 at a fine model given the three values 3.0, 0.5, 0.0: index 1 reads 0.5. -/
theorem C2_init_list_round_trip_witness :
    1 < [(3.0 : Float), 0.5, 0.0].length ∧
    _timing_source.T.get
      ((TimingSource.new Kind.Irinst 37 (fun _ _ => [])).init_list [3.0, 0.5, 0.0]).params 1
      = some 0.5 :=
  ⟨by decide,
   (C2_init_list_round_trip (TimingSource.new Kind.Irinst 37 (fun _ _ => []))
      [3.0, 0.5, 0.0]).2.2.1 1 (by decide)⟩

/-- C3: on a freshly constructed model with `N` categories (`N + 1` within `size_t`),
`get(i)` is in bounds and returns 0 for every `i ≤ N`, the reserved index `i = N`
included; in particular for a coarse model (`N = NumGroups`) and a fine model
(`N = IrinstNumGroups`). -/
theorem C3_fresh_model_reads_zero :
    (∀ (K : Kind) (N i : Nat) (fi : String → Callback),
      N + 1 < 2 ^ SIZE_WIDTH → i ≤ N →
      _timing_source.T.get (TimingSource.new K N fi).params i = some 0.0) ∧
    (∀ (K : Kind) (fi : String → Callback) (i : Nat), i ≤ LmbenchInstGroups.NumGroups →
      _timing_source.T.get (TimingSource.new K LmbenchInstGroups.NumGroups fi).params i
        = some 0.0) ∧
    (∀ (K : Kind) (fi : String → Callback) (i : Nat), i ≤ IrinstGroups.IrinstNumGroups →
      _timing_source.T.get (TimingSource.new K IrinstGroups.IrinstNumGroups fi).params i
        = some 0.0) := by
  have key : ∀ (K : Kind) (N i : Nat) (fi : String → Callback),
      N + 1 < 2 ^ SIZE_WIDTH → i ≤ N →
      _timing_source.T.get (TimingSource.new K N fi).params i = some 0.0 := by
    intro K N i fi hN hi
    simp only [TimingSource.new]
    apply get_replicate_zero
    rw [Nat.mod_eq_of_lt hN]
    omega
  exact ⟨key, fun K fi i hi => key K _ i fi (by decide) hi,
    fun K fi i hi => key K _ i fi (by decide) hi⟩

/-- C3 at a model with 16 categories, read at the reserved index 16. -/
theorem C3_fresh_model_reads_zero_witness :
    16 + 1 < 2 ^ SIZE_WIDTH ∧ 16 ≤ 16 ∧
    _timing_source.T.get (TimingSource.new Kind.Lmbench 16 (fun _ _ => [])).params 16
      = some 0.0 :=
  ⟨by decide, by decide,
   C3_fresh_model_reads_zero.1 Kind.Lmbench 16 16 (fun _ _ => []) (by decide) (by decide)⟩

/-! ## The two taxonomies -/

/-- C4: the coarse taxonomy. The four method codes are 0, 1, 2, 3 shifted left by 2 and
pairwise distinct (`Mod` is not `Div`); `method | numtype` sends the 16 pairs one-to-one
onto the indices 0..15; `Last = Double|Mod = 15`, `NumGroups = 16` and
`(Add<<2)|Integer = 0`. -/
theorem C4_coarse_taxonomy_encoding :
    LmbenchInstGroups.methods = [0 <<< 2, 1 <<< 2, 2 <<< 2, 3 <<< 2] ∧
    LmbenchInstGroups.ntypes = [0, 1, 2, 3] ∧
    LmbenchInstGroups.methods.Nodup ∧
    LmbenchInstGroups.Mod ≠ LmbenchInstGroups.Div ∧
    (∀ m ∈ LmbenchInstGroups.methods, ∀ t ∈ LmbenchInstGroups.ntypes,
      ∀ m1 ∈ LmbenchInstGroups.methods, ∀ t1 ∈ LmbenchInstGroups.ntypes,
        m ||| t = m1 ||| t1 → m = m1 ∧ t = t1) ∧
    (∀ k < 16, ∃ m ∈ LmbenchInstGroups.methods, ∃ t ∈ LmbenchInstGroups.ntypes,
      m ||| t = k) ∧
    (∀ m ∈ LmbenchInstGroups.methods, ∀ t ∈ LmbenchInstGroups.ntypes, m ||| t < 16) ∧
    (LmbenchInstGroups.methods.flatMap fun m => LmbenchInstGroups.ntypes.map fun t => m ||| t)
      = List.range 16 ∧
    LmbenchInstGroups.Last = LmbenchInstGroups.Double ||| LmbenchInstGroups.Mod ∧
    LmbenchInstGroups.Last = 15 ∧
    LmbenchInstGroups.NumGroups = 16 ∧
    (LmbenchInstGroups.Add <<< 2) ||| LmbenchInstGroups.Integer = 0 := by
  refine ⟨by decide, by decide, by decide, by decide, by decide, by decide, by decide,
    by decide, rfl, by decide, by decide, by decide⟩

/-- C4 at the pair `Mod`, `I64`: it is the only pair of category 13. -/
theorem C4_coarse_taxonomy_encoding_witness :
    LmbenchInstGroups.Mod ||| LmbenchInstGroups.I64 = 12 ||| 1 ∧
    LmbenchInstGroups.Mod = 12 ∧ LmbenchInstGroups.I64 = 1 :=
  ⟨by decide,
   C4_coarse_taxonomy_encoding.2.2.2.2.1 LmbenchInstGroups.Mod (by decide)
     LmbenchInstGroups.I64 (by decide) 12 (by decide) 1 (by decide) (by decide)⟩

/-- C5, as stated, fails: the enumerators from `LOAD` to `SELECT` are not 36 in number and
`IrinstNumGroups` is not 36. -/
theorem C5_fine_taxonomy_is_not_36 :
    IrinstGroups.categories.length ≠ 36 ∧ IrinstGroups.IrinstNumGroups ≠ 36 := by
  decide

/-- C5, amended: the fine taxonomy has 37 categories: the enumerators of `IrinstGroups`
from `LOAD` to `SELECT` are 37 pairwise distinct consecutive indices starting at 0
(`LOAD = 0`, `SELECT = 36`), and `IrinstNumGroups` equals 37. -/
theorem C5_fine_taxonomy_has_37_categories :
    IrinstGroups.categories.length = 37 ∧
    IrinstGroups.categories = List.range 37 ∧
    IrinstGroups.categories.Nodup ∧
    IrinstGroups.LOAD = 0 ∧
    IrinstGroups.SELECT = 36 ∧
    IrinstGroups.IrinstNumGroups = 37 := by
  refine ⟨by decide, by decide, by decide, by decide, by decide, by decide⟩

/-! ## The kind tag -/

/-- C8: `BBlockTiming::classof` accepts exactly `Lmbench`, `Irinst` and `IrinstMax`,
`MPITiming::classof` accepts exactly `MPBench`, no kind is accepted by both (`MPI` and
`BBlockLast` being one value), and what the `classof` of a concrete class accepts, the
`classof` of its family accepts. -/
theorem C8_classof_gates_downcasts (S : TimingSource) :
    (BBlockTiming.classof S = true ↔
      S.getKind = Kind.Lmbench ∨ S.getKind = Kind.Irinst ∨ S.getKind = Kind.IrinstMax) ∧
    (MPITiming.classof S = true ↔ S.getKind = Kind.MPBench) ∧
    ¬ (BBlockTiming.classof S = true ∧ MPITiming.classof S = true) ∧
    Kind.MPI = Kind.BBlockLast ∧
    (LmbenchTiming.classof S = true → BBlockTiming.classof S = true) ∧
    (IrinstTiming.classof S = true → BBlockTiming.classof S = true) ∧
    (IrinstMaxTiming.classof S = true → BBlockTiming.classof S = true) ∧
    (MPBenchTiming.classof S = true → MPITiming.classof S = true) := by
  simp only [BBlockTiming.classof, MPITiming.classof, LmbenchTiming.classof,
    IrinstTiming.classof, IrinstMaxTiming.classof, MPBenchTiming.classof,
    Kind.MPILast, Kind.MPBench, Kind.MPI, Kind.BBlockLast, Kind.IrinstMax, Kind.Irinst,
    Kind.Lmbench, Kind.BBlock, Kind.Base, Bool.and_eq_true, decide_eq_true_eq]
  obtain ⟨k, hk⟩ : ∃ k : Int, S.getKind = k := ⟨_, rfl⟩
  rw [hk]
  unfold TimingSource.Kind
  refine ⟨?_, ?_, ?_, trivial, ?_, ?_, ?_, ?_⟩ <;> omega

/-- C8 at a model of kind `Lmbench`: the concrete class accepts it, and so does the
basic-block family. -/
theorem C8_classof_gates_downcasts_witness :
    LmbenchTiming.classof ⟨Kind.Lmbench, fun _ _ => [], []⟩ = true ∧
    BBlockTiming.classof ⟨Kind.Lmbench, fun _ _ => [], []⟩ = true :=
  ⟨by decide,
   (C8_classof_gates_downcasts ⟨Kind.Lmbench, fun _ _ => [], []⟩).2.2.2.2.1 (by decide)⟩

/-- C10: for every kind at most one of `LmbenchTiming::classof`, `IrinstTiming::classof`,
`IrinstMaxTiming::classof` and `MPBenchTiming::classof` accepts it, and
`IrinstTiming::classof` rejects a model of kind `IrinstMax`, which
`IrinstMaxTiming::classof` accepts. -/
theorem C10_concrete_classof_exclusive (S : TimingSource) :
    ([LmbenchTiming.classof S, IrinstTiming.classof S, IrinstMaxTiming.classof S,
      MPBenchTiming.classof S].count true ≤ 1) ∧
    (∀ (fi : String → Callback) (p : List Float),
      IrinstTiming.classof ⟨Kind.IrinstMax, fi, p⟩ = false ∧
      IrinstMaxTiming.classof ⟨Kind.IrinstMax, fi, p⟩ = true) := by
  constructor
  · simp only [LmbenchTiming.classof, IrinstTiming.classof, IrinstMaxTiming.classof,
      MPBenchTiming.classof, Kind.MPBench, Kind.MPI, Kind.BBlockLast, Kind.IrinstMax,
      Kind.Irinst, Kind.Lmbench, Kind.BBlock, Kind.Base]
    by_cases h2 : S.getKind = 2
    · simp [h2]
    · by_cases h3 : S.getKind = 3
      · simp [h3]
      · by_cases h4 : S.getKind = 4
        · simp [h4]
        · by_cases h6 : S.getKind = 6
          · simp [h6]
          · simp [h2, h3, h4, h6]
  · intro fi p
    exact ⟨rfl, rfl⟩

/-! ## Value utilities -/

namespace lle

open Value

/-- C6, on the code: for a call of a function named by any of the seven entries of the
table, whatever the arguments, `get_mpi_count_idx` returns 0, while the table holds 2
for `mpi_reduce_` and `mpi_allreduce_` and 1 for the other five; the value handed to
`castoff` is the call instruction, which `castoff` returns unchanged. -/
theorem C6_get_mpi_count_idx_recognised_call_yields_zero :
    (∀ args : List Value,
      castoff (CallInst (Function "mpi_reduce_") args)
        = CallInst (Function "mpi_reduce_") args ∧
      get_mpi_count_idx (Function "mpi_reduce_") args = 0 ∧
      get_mpi_count_idx (Function "mpi_allreduce_") args = 0 ∧
      get_mpi_count_idx (Function "mpi_send_") args = 0 ∧
      get_mpi_count_idx (Function "mpi_recv_") args = 0 ∧
      get_mpi_count_idx (Function "mpi_isend_") args = 0 ∧
      get_mpi_count_idx (Function "mpi_irecv_") args = 0 ∧
      get_mpi_count_idx (Function "mpi_bcast_") args = 0) ∧
    CountPos.lookup "mpi_reduce_" = some 2 ∧
    CountPos.lookup "mpi_allreduce_" = some 2 ∧
    CountPos.lookup "mpi_send_" = some 1 ∧
    CountPos.lookup "mpi_recv_" = some 1 ∧
    CountPos.lookup "mpi_isend_" = some 1 ∧
    CountPos.lookup "mpi_irecv_" = some 1 ∧
    CountPos.lookup "mpi_bcast_" = some 1 := by
  refine ⟨fun args => ⟨rfl, ?_, ?_, ?_, ?_, ?_, ?_, ?_⟩, by decide, by decide, by decide,
    by decide, by decide, by decide, by decide⟩ <;>
  exact get_mpi_count_idx_eq_zero _ args

/-- C7: for a call whose called value is not a function, or is a function whose name is
not a key of the table, `get_mpi_count_idx` returns 0; the function is total and its
result is one of 0, 1, 2 for every call. -/
theorem C7_get_mpi_count_idx_unrecognised_call_yields_zero :
    (∀ (callee : Value) (args : List Value),
      ((∀ name, callee ≠ Function name) ∨
        (∃ name, callee = Function name ∧ name ∉ CountPos.map Prod.fst)) →
      get_mpi_count_idx callee args = 0) ∧
    (∀ (callee : Value) (args : List Value),
      get_mpi_count_idx callee args = 0 ∨ get_mpi_count_idx callee args = 1 ∨
      get_mpi_count_idx callee args = 2) :=
  ⟨fun callee args _ => get_mpi_count_idx_eq_zero callee args,
   fun callee args => Or.inl (get_mpi_count_idx_eq_zero callee args)⟩

/-- C7 at a call of `printf` with one argument, and at a call through a loaded pointer. -/
theorem C7_get_mpi_count_idx_unrecognised_call_yields_zero_witness :
    "printf" ∉ CountPos.map Prod.fst ∧
    get_mpi_count_idx (Function "printf") [GlobalVariable "fmt"] = 0 ∧
    get_mpi_count_idx (LoadInst (GlobalVariable "fp")) [] = 0 :=
  ⟨by decide,
   C7_get_mpi_count_idx_unrecognised_call_yields_zero.1 (Function "printf")
     [GlobalVariable "fmt"] (Or.inr ⟨"printf", rfl, by decide⟩),
   C7_get_mpi_count_idx_unrecognised_call_yields_zero.1 (LoadInst (GlobalVariable "fp")) []
     (Or.inl (fun name h => by cases h))⟩

/-- C9: for a load, store or `getelementptr` whose pointer operand is the global variable
`G`, directly or under any finite chain of cast instructions and cast constant
expressions, `access_global_variable` returns `G` (with any fuel from 2 on); for an
instruction that is not a load, store, cast or `getelementptr` it returns `NULL` (with any
fuel from 1 on). -/
theorem C9_access_global_variable_finds_global :
    (∀ (M : Module) (fuel : Nat) (G : String) (chain : List Bool) (val : Value),
      access_global_variable M (fuel + 2) (LoadInst (wrapCasts chain (GlobalVariable G)))
        = .ok (some G) ∧
      access_global_variable M (fuel + 2)
        (StoreInst val (wrapCasts chain (GlobalVariable G))) = .ok (some G) ∧
      access_global_variable M (fuel + 2)
        (GetElementPtrInst (wrapCasts chain (GlobalVariable G))) = .ok (some G)) ∧
    (∀ (M : Module) (fuel : Nat) (I : Value),
      I.isInstruction = true →
      (∀ p, I ≠ LoadInst p) → (∀ v p, I ≠ StoreInst v p) → (∀ q, I ≠ CastInst q) →
      (∀ p, I ≠ GetElementPtrInst p) →
      access_global_variable M (fuel + 1) I = .ok none) := by
  constructor
  · intro M fuel G chain val
    have h := access_global_variable_pointer M fuel G chain
    refine ⟨?_, ?_, ?_⟩ <;>
    · simp only [access_global_variable]
      exact h
  · intro M fuel I hI hL hS hC hG
    cases I with
    | LoadInst p => exact absurd rfl (hL p)
    | StoreInst v p => exact absurd rfl (hS v p)
    | CastInst q => exact absurd rfl (hC q)
    | GetElementPtrInst p => exact absurd rfl (hG p)
    | CallInst c a => simp [access_global_variable]
    | OtherInst => simp [access_global_variable]
    | _ => simp [isInstruction] at hI

/-- C9 at a load through a cast instruction of a cast constant expression of the global
`g`, which returns `g`, and at a call instruction and an instruction of another opcode,
which return `NULL`. -/
theorem C9_access_global_variable_finds_global_witness :
    access_global_variable (fun _ => []) 2
      (LoadInst (CastInst (CastConstantExpr (GlobalVariable "g")))) = .ok (some "g") ∧
    access_global_variable (fun _ => []) 1 (CallInst (Function "f") [GlobalVariable "g"])
      = .ok none ∧
    access_global_variable (fun _ => []) 1 OtherInst = .ok none :=
  ⟨(C9_access_global_variable_finds_global.1 (fun _ => []) 0 "g" [true, false] Other).1,
   C9_access_global_variable_finds_global.2 (fun _ => []) 0
     (CallInst (Function "f") [GlobalVariable "g"]) rfl
     (fun _ h => by cases h) (fun _ _ h => by cases h) (fun _ h => by cases h)
     (fun _ h => by cases h),
   C9_access_global_variable_finds_global.2 (fun _ => []) 0 OtherInst rfl
     (fun _ h => by cases h) (fun _ _ h => by cases h) (fun _ h => by cases h)
     (fun _ h => by cases h)⟩

end lle

end llvm
